import Mathlib

/-!
Shallow embedding of `stage3_match_validate_excel.py` (bacan-pipeline).

Python floats are modelled as exact rationals (every literal in the source is
decimal and the claims are about control flow and exact formulas, not binary
rounding).  Invoice and EAD rows are Python dicts in the source; both are
modelled by one record `Line` holding every key either `normalize_invoice_rows`
or `normalize_ead_rows` ever writes, with `none` standing for an absent key
(`dict.get` on a missing key returns `None` in Python, which is what every
consumer of these dicts uses).  The rapidfuzz similarity `fuzz.token_set_ratio`
is an external library call; it is modelled as an abstract parameter
`sim : String → String → ℚ`, threaded through the matcher and validator.
-/

/-- Python `int(x)` on a float: truncation toward zero. -/
def pyInt (q : ℚ) : ℤ := if 0 ≤ q then ⌊q⌋ else ⌈q⌉

/-- Python truthiness of an optional string (`None` and `""` are falsy). -/
def truthyS : Option String → Bool
  | none => false
  | some s => s != ""

/-- Python truthiness of an optional int (`None` and `0` are falsy). -/
def truthyZ : Option ℤ → Bool
  | none => false
  | some n => n != 0

/-- Python truthiness of an optional float (`None` and `0.0` are falsy). -/
def truthyQ : Option ℚ → Bool
  | none => false
  | some q => q != 0

/-- Python `str.strip()` with no argument: drop leading and trailing
whitespace.  Implemented structurally over the character list so concrete
inputs evaluate. -/
def pyStrip (s : String) : String :=
  ⟨((s.data.dropWhile Char.isWhitespace).reverse.dropWhile Char.isWhitespace).reverse⟩

/-- Python `str.lower()` (the source only applies it to ASCII text). -/
def pyLower (s : String) : String := ⟨s.data.map Char.toLower⟩

/-- Occurrence of `needle` as a contiguous sublist of `hay` (the Python
expression of the form needle in hay, on strings). -/
def containsSub : List Char → List Char → Bool
  | [], needle => needle.isEmpty
  | c :: t, needle => needle.isPrefixOf (c :: t) || containsSub t needle

/-- `str(x).strip()` applied to an optional string (callers only reach it when
the value is present; `getD ""` covers the impossible branch). -/
def stripOpt (o : Option String) : String := pyStrip (o.getD "")

/-- `normalize_bottle_liters` (stage3, lines 236-256): `v > 10` is read as
milliliters and divided by 1000; an integral value in `(1, 100]` equal to the
75/70/50 cl conventions is divided by 100; anything else passes through.
`abs(v - round(v)) < 1e-9` is the near-integer test of the source (at a .5 tie
the test is false for either rounding convention, so the Mathlib `round` is
faithful to the Python one). -/
def normalize_bottle_liters (v : ℚ) : ℚ :=
  if 10 < v then v / 1000
  else if 1 < v ∧ v ≤ 100 ∧ |v - (round v : ℚ)| < 1 / 1000000000 then
    (if v = 75 ∨ v = 70 ∨ v = 50 then v / 100 else v)
  else v

/-- One normalized row (invoice or EAD).  Keys the producing normalizer never
writes are `none`; in particular `normalize_ead_rows` writes `designation` and
`designazione_commerciale` but never a `description` key. -/
structure Line where
  description : Option String := none
  cn_code : Option String := none
  abv_percent : Option ℚ := none
  bottles : Option ℚ := none
  bottle_liters : Option ℚ := none
  bottles_total : Option ℚ := none
  cases : Option ℚ := none
  bottles_per_case : Option ℚ := none
  invoice_value_eur : Option ℚ := none
  lot : Option String := none
  progressivo : Option ℤ := none
  ead_liters : Option ℚ := none
  ead_gross_kg : Option ℚ := none
  ead_net_kg : Option ℚ := none
  designation : Option String := none
  denominazione_origine : Option String := none
  designazione_commerciale : Option String := none
deriving DecidableEq

/-- `liters_from_invoice` (stage3, lines 285-312): preferred formula
`cases * bottles_per_case * bottle_liters` (the stored bottle size is passed
through `normalize_bottle_liters` again); fallback
`bottles_total * bottle_liters` only when `bottles_total <= 5000`; `None`
otherwise.  The `try/except` arms of the source cannot fire on typed numbers. -/
def liters_from_invoice (l : Line) : Option ℚ :=
  let bl := Option.map normalize_bottle_liters l.bottle_liters
  match l.cases, l.bottles_per_case, bl with
  | some c, some p, some b => some (c * p * b)
  | _, _, _ =>
    match l.bottles_total, bl with
    | some bt, some b => if bt ≤ 5000 then some (bt * b) else none
    | _, _ => none

/-- `token_set_ratio` (stage3, lines 185-190): strip both sides, return `0.0`
when either is empty, else call rapidfuzz (the abstract `sim`). -/
def token_set_ratio_fn (sim : String → String → ℚ) (a b : String) : ℚ :=
  let a := pyStrip a
  let b := pyStrip b
  if a = "" ∨ b = "" then 0 else sim a b

/-- Matcher scoring, liters block (stage3, lines 446-454). -/
def scoreLiters (inv ead : Line) : ℚ :=
  match liters_from_invoice inv, ead.ead_liters with
  | some il, some el =>
      if |il - el| ≤ 1 / 2 then 80 else if |il - el| ≤ 2 then 50 else -50
  | _, _ => 0

/-- Matcher scoring, cases block (stage3, lines 457-461). -/
def scoreCases (inv ead : Line) : ℚ :=
  match inv.cases, ead.cases with
  | some a, some b => if pyInt a = pyInt b then 40 else -30
  | _, _ => 0

/-- Matcher scoring, ABV block (stage3, lines 464-474). -/
def scoreAbv (inv ead : Line) : ℚ :=
  match inv.abv_percent, ead.abv_percent with
  | some a, some b =>
      if |a - b| ≤ 3 / 10 then 25 else if |a - b| ≤ 7 / 10 then 10 else -25
  | _, _ => 0

/-- Matcher scoring, description tie-breaker (stage3, lines 477-480). -/
def scoreDesc (sim : String → String → ℚ) (inv ead : Line) : ℚ :=
  let a := pyStrip (inv.description.getD "")
  let b := pyStrip (ead.designation.getD "")
  if a ≠ "" ∧ b ≠ "" then token_set_ratio_fn sim a b / 2 else 0

/-- Total soft score of an invoice/EAD candidate pair (sum of the four
score blocks, accumulated in source order). -/
def pairScore (sim : String → String → ℚ) (inv ead : Line) : ℚ :=
  scoreLiters inv ead + scoreCases inv ead + scoreAbv inv ead + scoreDesc sim inv ead

/-- Hard filter (stage3, lines 439-441): when both sides carry a truthy
`cn_code` and the stripped strings differ, the EAD line is skipped. -/
def hardFilterPass (inv ead : Line) : Bool :=
  !(truthyS inv.cn_code && truthyS ead.cn_code
    && (stripOpt inv.cn_code != stripOpt ead.cn_code))

/-- One step of the inner loop of the matcher (stage3, lines 434-484): skip used
progressivi, apply the hard filter, keep the strictly better score. -/
def betterOf (sim : String → String → ℚ) (used : List (Option ℤ)) (inv : Line)
    (acc : Option Line × ℚ) (ead : Line) : Option Line × ℚ :=
  if ead.progressivo ∈ used then acc
  else if hardFilterPass inv ead = false then acc
  else if pairScore sim inv ead > acc.2 then (some ead, pairScore sim inv ead) else acc

/-- The inner loop of the matcher over all EAD lines, started at
`best = None, best_score = -1` (stage3, lines 431-432). -/
def bestCandidate (sim : String → String → ℚ) (used : List (Option ℤ)) (inv : Line)
    (eads : List Line) : Option Line × ℚ :=
  eads.foldl (betterOf sim used inv) (none, -1)

/-- The outer loop of the matcher (stage3, lines 430-488): one pair appended per
invoice line, the selected progressivo added to `used`. -/
def matchGo (sim : String → String → ℚ) (eads : List Line) :
    List (Option ℤ) → List Line → List (Line × Option Line × ℚ)
  | _, [] => []
  | used, inv :: rest =>
      match bestCandidate sim used inv eads with
      | (some b, s) => (inv, some b, s) :: matchGo sim eads (b.progressivo :: used) rest
      | (none, s) => (inv, none, s) :: matchGo sim eads used rest

/-- `match_invoice_to_ead` (stage3, lines 426-490). -/
def match_invoice_to_ead (sim : String → String → ℚ)
    (inv_lines ead_lines : List Line) : List (Line × Option Line × ℚ) :=
  matchGo sim ead_lines [] inv_lines

/-- A concrete stand-in for the rapidfuzz similarity, used to evaluate the
pipeline at concrete inputs whose description fields are empty or whose
similarity the claim leaves free. -/
def simZero : String → String → ℚ := fun _ _ => 0

/-- A value stored under a keyword argument of an issue record. -/
inductive Val where
  | vs : String → Val
  | vq : ℚ → Val
  | vz : ℤ → Val
  | vnone : Val
deriving DecidableEq

/-- `Val` of an optional string (`None` serialises as null). -/
def Val.ofS : Option String → Val
  | none => .vnone
  | some s => .vs s

/-- `Val` of an optional rational. -/
def Val.ofQ : Option ℚ → Val
  | none => .vnone
  | some q => .vq q

/-- `Val` of an optional integer. -/
def Val.ofZ : Option ℤ → Val
  | none => .vnone
  | some n => .vz n

/-- One issue record as appended by the local `add` helper of the validators:
check class, issue type, severity and the remaining keyword arguments. -/
structure Issue where
  check_class : String
  type : String
  severity : String
  data : List (String × Val)
deriving DecidableEq

/-- `[issue]` when the guard in the source holds, `[]` otherwise. -/
def optIssue (b : Bool) (i : Issue) : List Issue :=
  if b then [i] else []

/-- The issues one iteration of the `validate_lines` loop appends for one
matched pair (stage3, lines 508-600), in source order.  An absent EAD side
yields the single NO_MATCH issue and `continue`s. -/
def pairIssues (sim : String → String → ℚ)
    (liters_tol abv_tol_warn abv_tol_fail name_warn_threshold : ℚ)
    (m : Line × Option Line × ℚ) : List Issue :=
  let inv := m.1
  let inv_desc := pyStrip (inv.description.getD "")
  match m.2.1 with
  | none =>
      [⟨"PRODUCT_IDENTITY_CHECK", "NO_MATCH", "FAIL",
        [("invoice_desc", .vs inv_desc), ("match_score", .vq m.2.2)]⟩]
  | some ead =>
      -- completeness of the six required invoice fields, in list order
      (optIssue (inv.description = none ∨ pyStrip (inv.description.getD "") = "")
        ⟨"COMPLETENESS_CHECK", "MISSING_INVOICE_FIELD", "WARN",
          [("invoice_desc", .vs inv_desc), ("missing_field", .vs "description")]⟩)
      ++ (optIssue (inv.cn_code = none ∨ pyStrip (inv.cn_code.getD "") = "")
        ⟨"COMPLETENESS_CHECK", "MISSING_INVOICE_FIELD", "FAIL",
          [("invoice_desc", .vs inv_desc), ("missing_field", .vs "cn_code")]⟩)
      ++ (optIssue (inv.abv_percent = none)
        ⟨"COMPLETENESS_CHECK", "MISSING_INVOICE_FIELD", "WARN",
          [("invoice_desc", .vs inv_desc), ("missing_field", .vs "abv_percent")]⟩)
      ++ (optIssue (inv.cases = none)
        ⟨"COMPLETENESS_CHECK", "MISSING_INVOICE_FIELD", "FAIL",
          [("invoice_desc", .vs inv_desc), ("missing_field", .vs "cases")]⟩)
      ++ (optIssue (inv.bottles_per_case = none)
        ⟨"COMPLETENESS_CHECK", "MISSING_INVOICE_FIELD", "FAIL",
          [("invoice_desc", .vs inv_desc), ("missing_field", .vs "bottles_per_case")]⟩)
      ++ (optIssue (inv.bottle_liters = none)
        ⟨"COMPLETENESS_CHECK", "MISSING_INVOICE_FIELD", "FAIL",
          [("invoice_desc", .vs inv_desc), ("missing_field", .vs "bottle_liters")]⟩)
      -- EAD liters completeness
      ++ (optIssue (ead.ead_liters = none)
        ⟨"COMPLETENESS_CHECK", "MISSING_EAD_LITERS", "FAIL",
          [("invoice_desc", .vs inv_desc), ("ead_progressivo", .ofZ ead.progressivo)]⟩)
      -- CN mismatch
      ++ (optIssue (truthyS inv.cn_code && truthyS ead.cn_code
            && (stripOpt inv.cn_code != stripOpt ead.cn_code))
        ⟨"PRODUCT_IDENTITY_CHECK", "CN_CODE_MISMATCH", "FAIL",
          [("invoice_desc", .vs inv_desc), ("invoice_cn_code", .ofS inv.cn_code),
           ("ead_cn_code", .ofS ead.cn_code)]⟩)
      -- ABV mismatch
      ++ (match inv.abv_percent, ead.abv_percent with
          | some a, some b =>
              if |a - b| > abv_tol_fail then
                [⟨"PRODUCT_IDENTITY_CHECK", "ABV_MISMATCH", "FAIL",
                  [("invoice_desc", .vs inv_desc), ("invoice_abv", .vq a),
                   ("ead_abv", .vq b), ("diff", .vq |a - b|)]⟩]
              else if |a - b| > abv_tol_warn then
                [⟨"PRODUCT_IDENTITY_CHECK", "ABV_MISMATCH", "WARN",
                  [("invoice_desc", .vs inv_desc), ("invoice_abv", .vq a),
                   ("ead_abv", .vq b), ("diff", .vq |a - b|)]⟩]
              else []
          | _, _ => [])
      -- bottle size sanity (on the raw stored field)
      ++ (match inv.bottle_liters with
          | some bl =>
              optIssue (bl < 1 / 20 ∨ bl > 5)
                ⟨"PRODUCT_IDENTITY_CHECK", "BOTTLE_SIZE_SUSPICIOUS", "WARN",
                  [("invoice_desc", .vs inv_desc), ("bottle_liters", .vq bl)]⟩
          | none => [])
      -- liters invariant
      ++ (match liters_from_invoice inv, ead.ead_liters with
          | some il, some el =>
              optIssue (|il - el| > liters_tol)
                ⟨"QUANTITY_INTEGRITY_CHECK", "LITERS_MISMATCH", "FAIL",
                  [("invoice_desc", .vs inv_desc), ("invoice_calc_liters", .vq il),
                   ("ead_liters", .vq el)]⟩
          | _, _ => [])
      -- cases mismatch (the CASES_PARSE_ERROR arm cannot fire on typed numbers)
      ++ (match inv.cases, ead.cases with
          | some a, some b =>
              optIssue (pyInt a ≠ pyInt b)
                ⟨"QUANTITY_INTEGRITY_CHECK", "CASES_MISMATCH", "FAIL",
                  [("invoice_desc", .vs inv_desc), ("invoice_cases", .vq a),
                   ("ead_cases", .vq b)]⟩
          | _, _ => [])
      -- weight sanity
      ++ (match ead.ead_gross_kg, ead.ead_net_kg with
          | some g, some n =>
              optIssue (g ≤ n)
                ⟨"QUANTITY_INTEGRITY_CHECK", "WEIGHT_GROSS_LE_NET", "WARN",
                  [("invoice_desc", .vs inv_desc), ("ead_gross_kg", .vq g),
                   ("ead_net_kg", .vq n)]⟩
          | _, _ => [])
      ++ (match ead.ead_net_kg, ead.ead_liters with
          | some n, some el =>
              optIssue (|n - el| > max 2 (el / 50))
                ⟨"QUANTITY_INTEGRITY_CHECK", "NETKG_LITERS_SUSPICIOUS", "WARN",
                  [("invoice_desc", .vs inv_desc), ("ead_net_kg", .vq n),
                   ("ead_liters", .vq el)]⟩
          | _, _ => [])
      -- name similarity: the source reads the EAD row key "description"
      -- (stage3, line 586), not its "designation" key
      ++ (let inv_name := pyStrip (inv.description.getD "")
          let ead_name := pyStrip (ead.description.getD "")
          if inv_name ≠ "" ∧ ead_name ≠ "" then
            optIssue (token_set_ratio_fn sim inv_name ead_name < name_warn_threshold)
              ⟨"PRODUCT_IDENTITY_CHECK", "LOW_NAME_SIMILARITY", "WARN",
                [("invoice_desc", .vs inv_desc),
                 ("similarity", .vq (token_set_ratio_fn sim inv_name ead_name)),
                 ("invoice_name", .vs inv_name), ("ead_name", .vs ead_name)]⟩
          else [])
      -- lot presence
      ++ (optIssue (inv.lot = none)
        ⟨"PRODUCT_IDENTITY_CHECK", "MISSING_LOT", "WARN",
          [("invoice_desc", .vs inv_desc)]⟩)
      -- denominazione di origine presence
      ++ (optIssue (ead.denominazione_origine = none)
        ⟨"COMPLETENESS_CHECK", "MISSING_DENOMINAZIONE_ORIGINE", "WARN",
          [("invoice_desc", .vs inv_desc), ("ead_progressivo", .ofZ ead.progressivo)]⟩)

/-- `validate_lines` (stage3, lines 496-602): the loop appends `pairIssues`
for each matched pair in order, into one issue list. -/
def validate_lines (sim : String → String → ℚ)
    (liters_tol abv_tol_warn abv_tol_fail name_warn_threshold : ℚ)
    (ms : List (Line × Option Line × ℚ)) : List Issue :=
  ms.flatMap (pairIssues sim liters_tol abv_tol_warn abv_tol_fail name_warn_threshold)

/-- The record `extract_invoice_compliance` returns (stage3, lines 28-86).
The function itself is regex extraction over free invoice text; its result
record is taken as the input of the shipment validator here. -/
structure ComplianceInfo where
  supplier_vat : Option String := none
  supplier_cod_fisc : Option String := none
  supplier_eori : Option String := none
  supplier_rex : Option String := none
  consignee_eori : Option String := none
  incoterm : Option String := none
  total_colli : Option ℤ := none
  gross_kg : Option ℚ := none
  net_kg : Option ℚ := none
  pallet_count : Option ℤ := none
deriving DecidableEq

/-- The header attributes `validate_shipment` reads off the AI extraction
objects (`invoice_number`, `invoice_date`, `arc`). -/
structure HeaderInfo where
  invoice_number : Option String := none
  invoice_date : Option String := none
  arc : Option String := none
deriving DecidableEq

/-- `Counter(bpcs).most_common(1)[0][0]`: the value with the greatest count;
the Python Counter keeps keys in first-insertion order and `most_common` sorts
stably, so ties go to the earliest-seen value. -/
def modeFirst (l : List ℤ) : Option ℤ :=
  l.foldl (fun acc x =>
    match acc with
    | none => some x
    | some m => if l.count x > l.count m then some x else acc) none

/-- `sum(vals) if vals else None`. -/
def sumOrNone (l : List ℚ) : Option ℚ :=
  match l with
  | [] => none
  | _ => some l.sum

/-- `validate_shipment` (stage3, lines 605-745).  The three deterministic
text extractions it calls (`extract_invoice_compliance`,
`extract_invoice_totals`, `extract_ead_packaging_colli_sum`) are regex scans
of raw document text; their results enter here as `inv_comp`,
`inv_total_colli` and `ead_colli_sum`.  Note that the total-liters block
(lines 666-684) computes the EAD-side total by calling `liters_from_invoice`
on each EAD row, exactly as the source does. -/
def validate_shipment (inv_hdr ead_hdr : HeaderInfo)
    (inv_lines ead_lines : List Line) (inv_comp : ComplianceInfo)
    (inv_total_colli ead_colli_sum : Option ℤ) : List Issue :=
  -- compliance completeness (invoice header fields)
  (optIssue (!truthyS inv_comp.supplier_vat)
    ⟨"COMPLETENESS_CHECK", "MISSING_SUPPLIER_VAT", "FAIL", []⟩)
  ++ (optIssue (!truthyS inv_comp.supplier_eori)
    ⟨"COMPLETENESS_CHECK", "MISSING_SUPPLIER_EORI", "FAIL", []⟩)
  ++ (optIssue (!truthyS inv_comp.supplier_rex)
    ⟨"COMPLETENESS_CHECK", "MISSING_SUPPLIER_REX", "FAIL", []⟩)
  ++ (optIssue (!truthyS inv_comp.consignee_eori)
    ⟨"COMPLETENESS_CHECK", "MISSING_CONSIGNEE_EORI", "FAIL", []⟩)
  ++ (optIssue (!truthyS inv_comp.incoterm)
    ⟨"COMPLETENESS_CHECK", "MISSING_INCOTERM", "FAIL", []⟩)
  ++ (optIssue (!truthyZ inv_comp.total_colli)
    ⟨"COMPLETENESS_CHECK", "MISSING_TOTAL_COLLI", "FAIL", []⟩)
  ++ (optIssue (!truthyQ inv_comp.gross_kg)
    ⟨"COMPLETENESS_CHECK", "MISSING_GROSS_KG", "FAIL", []⟩)
  ++ (optIssue (!truthyQ inv_comp.net_kg)
    ⟨"COMPLETENESS_CHECK", "MISSING_NET_KG", "FAIL", []⟩)
  ++ (optIssue (!truthyZ inv_comp.pallet_count)
    ⟨"COMPLETENESS_CHECK", "MISSING_PALLET_COUNT", "WARN", []⟩)
  -- header completeness
  ++ (optIssue (!truthyS inv_hdr.invoice_number)
    ⟨"COMPLETENESS_CHECK", "MISSING_INVOICE_NUMBER", "FAIL", []⟩)
  ++ (optIssue (!truthyS ead_hdr.invoice_number)
    ⟨"COMPLETENESS_CHECK", "MISSING_EAD_INVOICE_NUMBER", "FAIL", []⟩)
  ++ (optIssue (!truthyS inv_hdr.arc)
    ⟨"COMPLETENESS_CHECK", "MISSING_ARC_IN_INVOICE", "FAIL", []⟩)
  ++ (optIssue (!truthyS ead_hdr.arc)
    ⟨"COMPLETENESS_CHECK", "MISSING_ARC_IN_EAD", "FAIL", []⟩)
  -- document consistency
  ++ (optIssue (truthyS inv_hdr.arc && truthyS ead_hdr.arc
        && (stripOpt inv_hdr.arc != stripOpt ead_hdr.arc))
    ⟨"DOCUMENT_CONSISTENCY_CHECK", "ARC_MISMATCH", "FAIL",
      [("invoice_arc", .ofS inv_hdr.arc), ("ead_arc", .ofS ead_hdr.arc)]⟩)
  ++ (optIssue (truthyS inv_hdr.invoice_number && truthyS ead_hdr.invoice_number
        && (stripOpt inv_hdr.invoice_number != stripOpt ead_hdr.invoice_number))
    ⟨"DOCUMENT_CONSISTENCY_CHECK", "INVOICE_NUMBER_MISMATCH", "FAIL",
      [("invoice_number", .ofS inv_hdr.invoice_number),
       ("ead_invoice_number", .ofS ead_hdr.invoice_number)]⟩)
  ++ (optIssue (truthyS inv_hdr.invoice_date && truthyS ead_hdr.invoice_date
        && (stripOpt inv_hdr.invoice_date != stripOpt ead_hdr.invoice_date))
    ⟨"DOCUMENT_CONSISTENCY_CHECK", "INVOICE_DATE_MISMATCH", "WARN",
      [("invoice_date", .ofS inv_hdr.invoice_date),
       ("ead_invoice_date", .ofS ead_hdr.invoice_date)]⟩)
  -- totals: liters (the EAD sum is liters_from_invoice over EAD rows, as in
  -- the source)
  ++ (match sumOrNone (inv_lines.filterMap liters_from_invoice),
            sumOrNone (ead_lines.filterMap liters_from_invoice) with
      | some a, some b =>
          optIssue (|a - b| > max 1 (b / 200))
            ⟨"QUANTITY_INTEGRITY_CHECK", "TOTAL_LITERS_MISMATCH", "FAIL",
              [("invoice_calc_liters_total", .vq a), ("ead_liters_total", .vq b)]⟩
      | _, _ => [])
  -- totals: cases
  ++ (let ics : ℤ := (inv_lines.map (fun l => pyInt (l.cases.getD 0))).sum
      let ecs : ℤ := (ead_lines.map (fun l => pyInt (l.cases.getD 0))).sum
      optIssue (ics ≠ 0 ∧ ics ≠ ecs)
        ⟨"QUANTITY_INTEGRITY_CHECK", "TOTAL_CASES_MISMATCH", "FAIL",
          [("invoice_sum_cases", .vz ics), ("ead_sum_cases", .vz ecs)]⟩)
  -- totals: EAD weight sanity
  ++ (match sumOrNone (ead_lines.filterMap (fun l => l.ead_gross_kg)),
            sumOrNone (ead_lines.filterMap (fun l => l.ead_net_kg)) with
      | some g, some n =>
          optIssue (g ≤ n)
            ⟨"QUANTITY_INTEGRITY_CHECK", "TOTAL_GROSS_LE_NET", "WARN",
              [("ead_gross_total", .vq g), ("ead_net_total", .vq n)]⟩
      | _, _ => [])
  -- invoice total colli vs EAD packaging colli sum
  ++ (match inv_total_colli, ead_colli_sum with
      | some a, some b =>
          optIssue (a ≠ b)
            ⟨"QUANTITY_INTEGRITY_CHECK", "TOTAL_COLLI_MISMATCH", "FAIL",
              [("invoice_total_colli", .vz a), ("ead_packaging_colli_sum", .vz b)]⟩
      | _, _ => [])
  -- packaging sanity: total bottles / total colli vs mode of bottles_per_case
  ++ (let bpcs : List ℤ := inv_lines.filterMap (fun l => l.bottles_per_case.map pyInt)
      let total_bottles : ℤ :=
        (inv_lines.map (fun l =>
          match l.cases, l.bottles_per_case with
          | some c, some p => pyInt c * pyInt p
          | _, _ => 0)).sum
      match inv_total_colli with
      | some t =>
          if t > 0 ∧ total_bottles > 0 then
            match modeFirst bpcs with
            | some m =>
                optIssue (|(total_bottles : ℚ) / (t : ℚ) - (m : ℚ)| > 1 / 4)
                  ⟨"QUANTITY_INTEGRITY_CHECK", "PACKAGING_UNIT_MISMATCH", "FAIL",
                    [("total_bottles", .vz total_bottles),
                     ("invoice_total_colli", .vz t),
                     ("bottles_per_carton", .vq ((total_bottles : ℚ) / (t : ℚ))),
                     ("mode_bottles_per_case", .vz m)]⟩
            | none =>
                [⟨"QUANTITY_INTEGRITY_CHECK", "PACKAGING_UNIT_UNCHECKED", "WARN",
                  [("reason", .vs "No bottles_per_case extracted from invoice rows")]⟩]
          else []
      | none => [])

/-- Splitting a character list at whitespace runs, accumulating the current
word reversed (helper of `collapseWs`). -/
def splitWsGo : List Char → List Char → List (List Char)
  | cur, [] => if cur.isEmpty then [] else [cur.reverse]
  | cur, c :: t =>
      if c.isWhitespace then
        (if cur.isEmpty then splitWsGo [] t else cur.reverse :: splitWsGo [] t)
      else splitWsGo (c :: cur) t

/-- Joining words with single blanks (helper of `collapseWs`). -/
def joinWords : List (List Char) → List Char
  | [] => []
  | [w] => w
  | w :: ws => w ++ ' ' :: joinWords ws

/-- `re.sub(r"\s+", " ", s).strip()`: collapse whitespace runs and trim. -/
def collapseWs (s : String) : String :=
  ⟨joinWords (splitWsGo [] s.data)⟩

/-- Python substring containment `a in b` (`b.__contains__(a)`). -/
def strContains (b a : String) : Bool :=
  containsSub b.data a.data

/-- One row of the AI EAD extraction, as `normalize_ead_rows` reads it
(stage3, lines 383-413). -/
structure AiEadRow where
  progressivo : Option ℤ := none
  cn_code : Option String := none
  abv_percent : Option ℚ := none
  ead_liters : Option ℚ := none
  ead_gross_kg : Option ℚ := none
  ead_net_kg : Option ℚ := none
  description : Option String := none
  designazione_commerciale : Option String := none
  designation : Option String := none
  denominazione_origine : Option String := none
  cases : Option ℚ := none
deriving DecidableEq

/-- `a or b or ""` over optional strings (Python `or` skips falsy values). -/
def firstTruthy (a b : Option String) : String :=
  match a with
  | some s => if s ≠ "" then s else (match b with | some t => if t ≠ "" then t else "" | none => "")
  | none => match b with | some t => if t ≠ "" then t else "" | none => ""

/-- The dict one iteration of `normalize_ead_rows` appends (stage3, lines
386-413).  The produced dict has no `description` key, so that field is
`none`. -/
def normalize_ead_row (idx : ℤ) (r : AiEadRow) : Line :=
  let desc := pyStrip (r.description.getD "")
  let extra := pyStrip (r.designazione_commerciale.getD "")
  let dc := if extra ≠ "" ∧ ¬ strContains (pyLower desc) (pyLower extra)
            then pyStrip (desc ++ " " ++ extra) else desc
  let desig := firstTruthy r.designation r.description
  { progressivo := some (r.progressivo.getD idx)
    cn_code := r.cn_code
    abv_percent := r.abv_percent
    ead_liters := r.ead_liters
    ead_gross_kg := r.ead_gross_kg
    ead_net_kg := r.ead_net_kg
    designation := some (collapseWs desig)
    denominazione_origine :=
      match r.denominazione_origine with
      | some d => if d ≠ "" then some (collapseWs d) else none
      | none => none
    designazione_commerciale := if dc ≠ "" then some (collapseWs dc) else none
    cases := r.cases }

/-- `normalize_ead_rows` over the row list, enumerating from 1. -/
def normalizeEadGo : ℤ → List AiEadRow → List Line
  | _, [] => []
  | i, r :: rest => normalize_ead_row i r :: normalizeEadGo (i + 1) rest

/-- `normalize_ead_rows` (stage3, lines 383-420), line list only (the header
fields are not used by the claims). -/
def normalize_ead_rows (rows : List AiEadRow) : List Line :=
  normalizeEadGo 1 rows

/-! ### Concrete fixtures used to evaluate the pipeline at specific inputs -/

/-- An invoice line with 10 cases of 6 bottles of 0.75 l (45 l total). -/
def line45 : Line :=
  { cases := some 10, bottles_per_case := some 6, bottle_liters := some (3 / 4) }

/-- An EAD line declaring 100 l under progressivo 1. -/
def ead100 : Line := { progressivo := some 1, ead_liters := some 100 }

/-- A header record with every field present. -/
def hdrOk : HeaderInfo :=
  { invoice_number := some "77", invoice_date := some "2024-01-01", arc := some "24IT7" }

/-- A compliance record with every mandatory field present and truthy. -/
def compOk : ComplianceInfo :=
  { supplier_vat := some "123", supplier_eori := some "IT1", supplier_rex := some "ITREX1",
    consignee_eori := some "GB1", incoterm := some "EXW", total_colli := some 10,
    gross_kg := some 100, net_kg := some 90, pallet_count := some 2 }

/-- An invoice line with cases but no extractable bottles-per-case. -/
def lineC5 : Line :=
  { description := some "VINO", cases := some 5, bottle_liters := some (3 / 4) }

/-- A fully populated invoice line (all required fields present). -/
def invC4 : Line :=
  { description := some "BAROLO DOCG", cn_code := some "2204", abv_percent := some 14,
    cases := some 10, bottles_per_case := some 6, bottle_liters := some (3 / 4),
    lot := some "L1" }

/-- An AI-extracted EAD row with a non-empty designation. -/
def aiC4 : AiEadRow :=
  { progressivo := some 1, cn_code := some "2204", abv_percent := some 14,
    ead_liters := some 45, ead_gross_kg := some 50, ead_net_kg := some 44,
    description := some "BAROLO", designazione_commerciale := some "RED WINE",
    designation := some "BAROLO DOCG RED WINE", denominazione_origine := some "BAROLO DOCG" }

/-- The normalized row `normalize_ead_rows` produces from `aiC4`. -/
def eadC4 : Line := normalize_ead_row 1 aiC4

/-- An invoice line carrying commodity code "22042176" and 45 l. -/
def invC6 : Line :=
  { cn_code := some "22042176", cases := some 10, bottles_per_case := some 6,
    bottle_liters := some (3 / 4) }

/-- An EAD line whose commodity code equals that of `invC6` after stripping. -/
def eadC6 : Line :=
  { progressivo := some 3, cn_code := some " 22042176 ", ead_liters := some 45 }

/-- The invoice line of the liters-formula fixture (10 x 6 x 0.75 l). -/
def lineC9 : Line :=
  { cases := some 10, bottles_per_case := some 6, bottle_liters := some (3 / 4) }

/-- The progressivi already consumed by the first `i` output pairs of a match
result: the used-set of the matcher when it processes invoice line `i`. -/
def usedBefore (ms : List (Line × Option Line × ℚ)) (i : ℕ) : List (Option ℤ) :=
  ((ms.take i).filterMap (fun q => q.2.1)).map (fun e => e.progressivo)

/-! ### Helper lemmas about the matcher loops -/

/-- The running best score never decreases across one inner-loop step. -/
theorem betterOf_snd_le (sim : String → String → ℚ) (used : List (Option ℤ)) (inv : Line)
    (acc : Option Line × ℚ) (e : Line) : acc.2 ≤ (betterOf sim used inv acc e).2 := by
  unfold betterOf
  split_ifs with h1 h2 h3
  · exact le_refl _
  · exact le_refl _
  · exact le_of_lt h3
  · exact le_refl _

/-- Once a best candidate is held it is never dropped by a step. -/
theorem betterOf_isSome (sim : String → String → ℚ) (used : List (Option ℤ)) (inv : Line)
    (acc : Option Line × ℚ) (e : Line) (h : acc.1.isSome) :
    (betterOf sim used inv acc e).1.isSome := by
  unfold betterOf
  split_ifs <;> simp [h]

/-- A step either keeps the accumulator or selects the visited EAD line, and
selection happens only for an available line that passes the hard filter with
a strictly better score. -/
theorem betterOf_cases (sim : String → String → ℚ) (used : List (Option ℤ)) (inv : Line)
    (acc : Option Line × ℚ) (e : Line) :
    betterOf sim used inv acc e = acc ∨
    (betterOf sim used inv acc e = (some e, pairScore sim inv e) ∧
      e.progressivo ∉ used ∧ hardFilterPass inv e = true ∧ pairScore sim inv e > acc.2) := by
  unfold betterOf
  split_ifs with h1 h2 h3
  · exact Or.inl rfl
  · exact Or.inl rfl
  · exact Or.inr ⟨rfl, h1, by simpa using h2, h3⟩
  · exact Or.inl rfl

/-- The inner loop only raises the running best score. -/
theorem foldBest_snd_le (sim : String → String → ℚ) (used : List (Option ℤ)) (inv : Line) :
    ∀ (l : List Line) (acc : Option Line × ℚ),
      acc.2 ≤ (l.foldl (betterOf sim used inv) acc).2 := by
  intro l
  induction l with
  | nil => intro acc; exact le_refl _
  | cons e t ih =>
      intro acc
      calc acc.2 ≤ (betterOf sim used inv acc e).2 := betterOf_snd_le ..
        _ ≤ _ := ih (betterOf sim used inv acc e)

/-- The inner loop never drops a held best candidate. -/
theorem foldBest_isSome (sim : String → String → ℚ) (used : List (Option ℤ)) (inv : Line) :
    ∀ (l : List Line) (acc : Option Line × ℚ), acc.1.isSome →
      (l.foldl (betterOf sim used inv) acc).1.isSome := by
  intro l
  induction l with
  | nil => intro acc h; exact h
  | cons e t ih =>
      intro acc h
      exact ih _ (betterOf_isSome sim used inv acc e h)

/-- Whatever the inner loop selects was visited, is unused and passes the
hard filter. -/
theorem foldBest_mem (sim : String → String → ℚ) (used : List (Option ℤ)) (inv : Line) :
    ∀ (l : List Line) (acc : Option Line × ℚ) (x : Line),
      (l.foldl (betterOf sim used inv) acc).1 = some x →
      acc.1 = some x ∨ (x ∈ l ∧ x.progressivo ∉ used ∧ hardFilterPass inv x = true) := by
  intro l
  induction l with
  | nil => intro acc x h; exact Or.inl h
  | cons e t ih =>
      intro acc x h
      rcases ih (betterOf sim used inv acc e) x h with h1 | h1
      · rcases betterOf_cases sim used inv acc e with h2 | ⟨h2, h3, h4, h5⟩
        · rw [h2] at h1; exact Or.inl h1
        · rw [h2] at h1
          simp only [Option.some.injEq] at h1
          subst h1
          exact Or.inr ⟨List.mem_cons_self .., h3, h4⟩
      · exact Or.inr ⟨List.mem_cons_of_mem _ h1.1, h1.2⟩

/-- The inner loop ends holding a candidate exactly when one of the visited
lines is available, passes the hard filter and scores strictly above the
starting best score. -/
theorem foldBest_isSome_iff (sim : String → String → ℚ) (used : List (Option ℤ)) (inv : Line) :
    ∀ (l : List Line) (acc : Option Line × ℚ),
      (l.foldl (betterOf sim used inv) acc).1.isSome ↔
        acc.1.isSome = true ∨ ∃ e ∈ l, e.progressivo ∉ used ∧ hardFilterPass inv e = true ∧
          pairScore sim inv e > acc.2 := by
  intro l
  induction l with
  | nil => intro acc; simp
  | cons e t ih =>
      intro acc
      constructor
      · intro h
        rcases (ih (betterOf sim used inv acc e)).1 h with h1 | ⟨x, hx, h2, h3, h4⟩
        · rcases betterOf_cases sim used inv acc e with hc | ⟨hc, h3, h4, h5⟩
          · rw [hc] at h1; exact Or.inl h1
          · exact Or.inr ⟨e, List.mem_cons_self .., h3, h4, h5⟩
        · rcases betterOf_cases sim used inv acc e with hc | ⟨hc, h5, h6, h7⟩
          · rw [hc] at h4
            exact Or.inr ⟨x, List.mem_cons_of_mem _ hx, h2, h3, h4⟩
          · exact Or.inr ⟨e, List.mem_cons_self .., h5, h6, h7⟩
      · intro h
        rcases h with h | ⟨x, hx, h2, h3, h4⟩
        · rw [List.foldl_cons]
          exact foldBest_isSome sim used inv t _ (betterOf_isSome sim used inv acc e h)
        · rcases List.mem_cons.1 hx with rfl | hx
          · have hs : (betterOf sim used inv acc x).1.isSome := by
              unfold betterOf
              rw [if_neg h2, if_neg (by simp [h3]), if_pos h4]
              simp
            exact foldBest_isSome sim used inv t _ hs
          · rcases betterOf_cases sim used inv acc e with hc | ⟨hc, h5, h6, h7⟩
            · exact (ih (betterOf sim used inv acc e)).2
                (Or.inr ⟨x, hx, h2, h3, by rw [hc]; exact h4⟩)
            · have hs : (betterOf sim used inv acc e).1.isSome := by rw [hc]; simp
              exact foldBest_isSome sim used inv t _ hs

/-- An inner loop that selects nothing leaves the accumulator untouched (in
particular the sentinel score stays). -/
theorem foldBest_eq_of_none (sim : String → String → ℚ) (used : List (Option ℤ)) (inv : Line) :
    ∀ (l : List Line) (acc : Option Line × ℚ),
      (l.foldl (betterOf sim used inv) acc).1 = none →
      l.foldl (betterOf sim used inv) acc = acc := by
  intro l
  induction l with
  | nil => intro acc _; rfl
  | cons e t ih =>
      intro acc h
      rw [List.foldl_cons] at h ⊢
      have h2 := ih (betterOf sim used inv acc e) h
      rcases betterOf_cases sim used inv acc e with hc | ⟨hc, _, _, _⟩
      · rw [hc] at h2 ⊢; exact h2
      · rw [h2, hc] at h
        simp at h

/-- The outer loop reproduces the invoice lines as first components, in
order. -/
theorem matchGo_map_fst (sim : String → String → ℚ) (eads : List Line) :
    ∀ (invs : List Line) (used : List (Option ℤ)),
      (matchGo sim eads used invs).map (fun p => p.1) = invs := by
  intro invs
  induction invs with
  | nil => intro used; rfl
  | cons inv rest ih =>
      intro used
      unfold matchGo
      rcases hb : bestCandidate sim used inv eads with ⟨_ | b, s⟩ <;> simp [hb, ih]

/-- Every EAD line selected by the outer loop is one of the EAD lines, was
not yet used when selected, and passes the hard filter against the invoice
line it is paired with. -/
theorem matchGo_sel (sim : String → String → ℚ) (eads : List Line) :
    ∀ (invs : List Line) (used : List (Option ℤ)) (p : Line × Option Line × ℚ),
      p ∈ matchGo sim eads used invs → ∀ e : Line, p.2.1 = some e →
        e ∈ eads ∧ e.progressivo ∉ used ∧ hardFilterPass p.1 e = true := by
  intro invs
  induction invs with
  | nil => intro used p hp; simp [matchGo] at hp
  | cons inv rest ih =>
      intro used p hp e he
      unfold matchGo at hp
      rcases hb : bestCandidate sim used inv eads with ⟨ob, s⟩
      rw [hb] at hp
      rcases ob with _ | b
      · rcases List.mem_cons.1 hp with rfl | hp2
        · simp at he
        · exact ih used p hp2 e he
      · rcases List.mem_cons.1 hp with rfl | hp2
        · simp only [Option.some.injEq] at he
          have hb1 : (bestCandidate sim used inv eads).1 = some e := by
            rw [hb]; simpa using he
          have := foldBest_mem sim used inv eads (none, -1) e hb1
          rcases this with h | h
          · cases h
          · exact ⟨h.1, h.2.1, h.2.2⟩
        · have := ih (b.progressivo :: used) p hp2 e he
          exact ⟨this.1, fun hm => this.2.1 (List.mem_cons_of_mem _ hm), this.2.2⟩

/-- The progressivi of the EAD lines selected by the outer loop are pairwise
distinct. -/
theorem matchGo_nodup (sim : String → String → ℚ) (eads : List Line) :
    ∀ (invs : List Line) (used : List (Option ℤ)),
      (((matchGo sim eads used invs).filterMap (fun p => p.2.1)).map
        (fun e => e.progressivo)).Nodup := by
  intro invs
  induction invs with
  | nil => intro used; simp [matchGo]
  | cons inv rest ih =>
      intro used
      unfold matchGo
      rcases hb : bestCandidate sim used inv eads with ⟨_ | b, s⟩
      · simpa using ih used
      · simp only [List.filterMap_cons, List.map_cons, List.nodup_cons]
        refine ⟨?_, ih (b.progressivo :: used)⟩
        intro hmem
        simp only [List.mem_map, List.mem_filterMap] at hmem
        rcases hmem with ⟨x, ⟨p, hp, hpx⟩, hxp⟩
        have := (matchGo_sel sim eads rest (b.progressivo :: used) p hp x hpx).2.1
        exact this (by rw [hxp]; exact List.mem_cons_self ..)

/-- A pair the outer loop leaves without an EAD side carries the sentinel
score -1. -/
theorem matchGo_sentinel (sim : String → String → ℚ) (eads : List Line) :
    ∀ (invs : List Line) (used : List (Option ℤ)) (p : Line × Option Line × ℚ),
      p ∈ matchGo sim eads used invs → p.2.1 = none → p.2.2 = -1 := by
  intro invs
  induction invs with
  | nil => intro used p hp; simp [matchGo] at hp
  | cons inv rest ih =>
      intro used p hp hn
      unfold matchGo at hp
      rcases hb : bestCandidate sim used inv eads with ⟨ob, s⟩
      rw [hb] at hp
      rcases ob with _ | b
      · rcases List.mem_cons.1 hp with rfl | hp2
        · have h1 : (bestCandidate sim used inv eads).1 = none := by rw [hb]
          have h2 := foldBest_eq_of_none sim used inv eads (none, -1) h1
          rw [bestCandidate] at hb
          rw [h2] at hb
          simp only [Prod.mk.injEq] at hb
          simpa using hb.2.symm
        · exact ih used p hp2 hn
      · rcases List.mem_cons.1 hp with rfl | hp2
        · simp at hn
        · exact ih (b.progressivo :: used) p hp2 hn

/-- Every available hard-filter-passing candidate scores at most the final
best score of the inner loop (maximality of the greedy selection). -/
theorem foldBest_max (sim : String → String → ℚ) (used : List (Option ℤ)) (inv : Line) :
    ∀ (l : List Line) (acc : Option Line × ℚ) (x : Line), x ∈ l →
      x.progressivo ∉ used → hardFilterPass inv x = true →
      pairScore sim inv x ≤ (l.foldl (betterOf sim used inv) acc).2 := by
  intro l
  induction l with
  | nil => intro acc x hx; simp at hx
  | cons e t ih =>
      intro acc x hx h2 h3
      rw [List.foldl_cons]
      rcases List.mem_cons.1 hx with rfl | hx2
      · by_cases hgt : pairScore sim inv x > acc.2
        · have hup : betterOf sim used inv acc x = (some x, pairScore sim inv x) := by
            unfold betterOf
            rw [if_neg h2, if_neg (by simp [h3]), if_pos hgt]
          rw [hup]
          simpa using foldBest_snd_le sim used inv t (some x, pairScore sim inv x)
        · exact le_trans (not_lt.1 hgt)
            (le_trans (betterOf_snd_le sim used inv acc x)
              (foldBest_snd_le sim used inv t (betterOf sim used inv acc x)))
      · exact ih (betterOf sim used inv acc e) x hx2 h2 h3

/-- If every held candidate is held together with its own score, the inner
loop keeps that invariant: the final score is the score of the final
candidate. -/
theorem foldBest_score_eq (sim : String → String → ℚ) (used : List (Option ℤ)) (inv : Line) :
    ∀ (l : List Line) (acc : Option Line × ℚ),
      (∀ y, acc.1 = some y → acc.2 = pairScore sim inv y) →
      ∀ y, (l.foldl (betterOf sim used inv) acc).1 = some y →
        (l.foldl (betterOf sim used inv) acc).2 = pairScore sim inv y := by
  intro l
  induction l with
  | nil => intro acc hP y hy; exact hP y hy
  | cons e t ih =>
      intro acc hP y hy
      rw [List.foldl_cons] at hy ⊢
      refine ih (betterOf sim used inv acc e) ?_ y hy
      intro z hz
      rcases betterOf_cases sim used inv acc e with hc | ⟨hc, _, _, _⟩
      · rw [hc] at hz ⊢; exact hP z hz
      · rw [hc] at hz ⊢
        simp only [Option.some.injEq] at hz
        simp [hz]

/-- A held candidate always has score strictly above the sentinel -1. -/
theorem foldBest_gt_sentinel (sim : String → String → ℚ) (used : List (Option ℤ)) (inv : Line) :
    ∀ (l : List Line) (acc : Option Line × ℚ),
      -1 ≤ acc.2 → (acc.1.isSome → acc.2 > -1) →
      (l.foldl (betterOf sim used inv) acc).1.isSome →
      (l.foldl (betterOf sim used inv) acc).2 > -1 := by
  intro l
  induction l with
  | nil => intro acc h1 h2 h3; exact h2 h3
  | cons e t ih =>
      intro acc h1 h2 h3
      rw [List.foldl_cons] at h3 ⊢
      refine ih (betterOf sim used inv acc e)
        (le_trans h1 (betterOf_snd_le sim used inv acc e)) ?_ h3
      intro hs
      rcases betterOf_cases sim used inv acc e with hc | ⟨hc, _, _, h5⟩
      · rw [hc] at hs ⊢; exact h2 hs
      · rw [hc]
        simpa using lt_of_le_of_lt h1 h5

/-- Full specification of the inner loop: a selected line is available,
passes the hard filter, is recorded together with its own score which
exceeds -1 and is maximal among available passing candidates; with no
selection the sentinel -1 remains and bounds every candidate score. -/
theorem bestCandidate_spec (sim : String → String → ℚ) (used : List (Option ℤ))
    (inv : Line) (eads : List Line) :
    (∀ e, (bestCandidate sim used inv eads).1 = some e →
        (bestCandidate sim used inv eads).2 = pairScore sim inv e
      ∧ pairScore sim inv e > -1
      ∧ e ∈ eads ∧ e.progressivo ∉ used ∧ hardFilterPass inv e = true)
    ∧ ((bestCandidate sim used inv eads).1 = none →
        (bestCandidate sim used inv eads).2 = -1)
    ∧ (∀ x ∈ eads, x.progressivo ∉ used → hardFilterPass inv x = true →
        pairScore sim inv x ≤ (bestCandidate sim used inv eads).2) := by
  refine ⟨?_, ?_, ?_⟩
  · intro e he
    have hsc := foldBest_score_eq sim used inv eads (none, -1) (by simp) e he
    have he2 : (eads.foldl (betterOf sim used inv) (none, -1)).1 = some e := he
    have hgt : (bestCandidate sim used inv eads).2 > -1 :=
      foldBest_gt_sentinel sim used inv eads (none, -1) (by norm_num) (by simp)
        (by simp [he2])
    have hmem := foldBest_mem sim used inv eads (none, -1) e he
    rcases hmem with h | h
    · simp at h
    · exact ⟨hsc, hsc ▸ hgt, h.1, h.2.1, h.2.2⟩
  · intro h
    have := foldBest_eq_of_none sim used inv eads (none, -1) h
    rw [bestCandidate, this]
  · intro x hx h2 h3
    exact foldBest_max sim used inv eads (none, -1) x hx h2 h3

/-- One inner-loop step only inspects membership in the used set, so any two
membership-equivalent used lists give the same step. -/
theorem betterOf_congr_used (sim : String → String → ℚ) (inv : Line)
    (u1 u2 : List (Option ℤ)) (h : ∀ z, z ∈ u1 ↔ z ∈ u2)
    (acc : Option Line × ℚ) (e : Line) :
    betterOf sim u1 inv acc e = betterOf sim u2 inv acc e := by
  unfold betterOf
  by_cases hm : e.progressivo ∈ u1
  · rw [if_pos hm, if_pos ((h _).1 hm)]
  · rw [if_neg hm, if_neg (fun hc => hm ((h _).2 hc))]

/-- The inner loop depends on the used set only through membership. -/
theorem bestCandidate_congr_used (sim : String → String → ℚ) (inv : Line)
    (eads : List Line) (u1 u2 : List (Option ℤ)) (h : ∀ z, z ∈ u1 ↔ z ∈ u2) :
    bestCandidate sim u1 inv eads = bestCandidate sim u2 inv eads := by
  have hfold : ∀ (l : List Line) (acc : Option Line × ℚ),
      l.foldl (betterOf sim u1 inv) acc = l.foldl (betterOf sim u2 inv) acc := by
    intro l
    induction l with
    | nil => intro acc; rfl
    | cons e t ih =>
        intro acc
        rw [List.foldl_cons, List.foldl_cons, betterOf_congr_used sim inv u1 u2 h, ih]
  exact hfold eads (none, -1)

/-- The pair at position i of the outer loop output is exactly the invoice
line at position i together with the inner-loop selection made against the
progressivi used by the earlier pairs. -/
theorem matchGo_getElem (sim : String → String → ℚ) (eads : List Line) :
    ∀ (invs : List Line) (used : List (Option ℤ)) (i : ℕ)
      (hi : i < (matchGo sim eads used invs).length),
      ∃ hj : i < invs.length,
        (matchGo sim eads used invs).get ⟨i, hi⟩ =
          (invs.get ⟨i, hj⟩,
           (bestCandidate sim (usedBefore (matchGo sim eads used invs) i ++ used)
             (invs.get ⟨i, hj⟩) eads).1,
           (bestCandidate sim (usedBefore (matchGo sim eads used invs) i ++ used)
             (invs.get ⟨i, hj⟩) eads).2) := by
  intro invs
  induction invs with
  | nil => intro used i hi; simp [matchGo] at hi
  | cons inv rest ih =>
      intro used i hi
      rcases hb : bestCandidate sim used inv eads with ⟨ob, s⟩
      rcases ob with _ | b
      · have hms : matchGo sim eads used (inv :: rest) =
            (inv, none, s) :: matchGo sim eads used rest := by
          conv_lhs => simp only [matchGo]
          rw [hb]
        rcases i with _ | j
        · refine ⟨by norm_num, ?_⟩
          have h0 : usedBefore (matchGo sim eads used (inv :: rest)) 0 ++ used = used := by
            simp [usedBefore]
          rw [h0]
          have hgl : (matchGo sim eads used (inv :: rest)).get ⟨0, hi⟩ = (inv, none, s) := by
            simp only [List.get_of_eq hms]
            rfl
          rw [hgl]
          show (inv, (none : Option Line), s) =
            (inv, (bestCandidate sim used inv eads).1, (bestCandidate sim used inv eads).2)
          rw [hb]
        · have hi2 : j < (matchGo sim eads used rest).length := by
            rw [hms] at hi; simpa using hi
          obtain ⟨hj, hspec⟩ := ih used j hi2
          refine ⟨by simpa using Nat.succ_lt_succ hj, ?_⟩
          have hused : usedBefore (matchGo sim eads used (inv :: rest)) (j + 1) =
              usedBefore (matchGo sim eads used rest) j := by
            rw [hms]
            simp [usedBefore, List.take_succ_cons, List.filterMap_cons]
          rw [hused]
          have hgl : (matchGo sim eads used (inv :: rest)).get ⟨j + 1, hi⟩ =
              (matchGo sim eads used rest).get ⟨j, hi2⟩ := by
            simp only [List.get_of_eq hms]
            rfl
          rw [hgl, hspec]
          rfl
      · have hms : matchGo sim eads used (inv :: rest) =
            (inv, some b, s) :: matchGo sim eads (b.progressivo :: used) rest := by
          conv_lhs => simp only [matchGo]
          rw [hb]
        rcases i with _ | j
        · refine ⟨by norm_num, ?_⟩
          have h0 : usedBefore (matchGo sim eads used (inv :: rest)) 0 ++ used = used := by
            simp [usedBefore]
          rw [h0]
          have hgl : (matchGo sim eads used (inv :: rest)).get ⟨0, hi⟩ = (inv, some b, s) := by
            simp only [List.get_of_eq hms]
            rfl
          rw [hgl]
          show (inv, some b, s) =
            (inv, (bestCandidate sim used inv eads).1, (bestCandidate sim used inv eads).2)
          rw [hb]
        · have hi2 : j < (matchGo sim eads (b.progressivo :: used) rest).length := by
            rw [hms] at hi; simpa using hi
          obtain ⟨hj, hspec⟩ := ih (b.progressivo :: used) j hi2
          refine ⟨by simpa using Nat.succ_lt_succ hj, ?_⟩
          have hused : usedBefore (matchGo sim eads used (inv :: rest)) (j + 1) ++ used =
              b.progressivo ::
                (usedBefore (matchGo sim eads (b.progressivo :: used) rest) j ++ used) := by
            rw [hms]
            simp [usedBefore, List.take_succ_cons, List.filterMap_cons]
          have hcongr : bestCandidate sim
              (usedBefore (matchGo sim eads used (inv :: rest)) (j + 1) ++ used)
              (rest.get ⟨j, hj⟩) eads =
              bestCandidate sim
                (usedBefore (matchGo sim eads (b.progressivo :: used) rest) j
                  ++ (b.progressivo :: used)) (rest.get ⟨j, hj⟩) eads := by
            rw [hused]
            refine bestCandidate_congr_used sim _ eads _ _ ?_
            intro z
            simp [List.mem_append, List.mem_cons]
            tauto
          have hgl : (matchGo sim eads used (inv :: rest)).get ⟨j + 1, hi⟩ =
              (matchGo sim eads (b.progressivo :: used) rest).get ⟨j, hi2⟩ := by
            simp only [List.get_of_eq hms]
            rfl
          simp only [List.get_cons_succ]
          rw [hgl, hspec, hcongr]

/-! ### Claim theorems -/

/-- C1: evaluation of `normalize_bottle_liters` at the inputs the claim
names.  The code maps 750 to 0.75 and leaves 0.75 and 10 unchanged, but maps
75 to 0.075, 70 to 0.07 and 50 to 0.05: any value strictly above 10 is
divided by 1000, so the centiliter branch for 75, 70 and 50 is unreachable
and the documented result 0.75 for input 75 is not produced. -/
theorem normalize_bottle_liters_values :
    normalize_bottle_liters 750 = 3 / 4 ∧ normalize_bottle_liters 75 = 3 / 40 ∧
    normalize_bottle_liters 70 = 7 / 100 ∧ normalize_bottle_liters 50 = 1 / 20 ∧
    normalize_bottle_liters (3 / 4) = 3 / 4 ∧ normalize_bottle_liters 10 = 10 := by
  norm_num [normalize_bottle_liters]

/-- C2 (counterexample): an EAD line that passes the hard filter but scores
-50 (liters far apart) is not recorded: the matcher pairs the invoice line
with `none` and the sentinel score -1, refuting the claim that a pairing is
absent only when no EAD line passes the hard filter. -/
theorem matcher_drops_negative_best :
    match_invoice_to_ead simZero [line45] [ead100] = [(line45, none, -1)]
    ∧ hardFilterPass line45 ead100 = true
    ∧ pairScore simZero line45 ead100 = -50 := by
  norm_num [match_invoice_to_ead, matchGo, bestCandidate, betterOf, pairScore, scoreLiters,
    scoreCases, scoreAbv, scoreDesc, liters_from_invoice, normalize_bottle_liters,
    hardFilterPass, truthyS, stripOpt, token_set_ratio_fn, line45, ead100, simZero]

/-- Helper: the inner loop holds a candidate exactly when some not-yet-used
EAD line passes the hard filter and scores strictly above the initial best
score -1, and an absent pair carries the sentinel score -1. -/
theorem matcher_records_iff_score_above_sentinel (sim : String → String → ℚ)
    (used : List (Option ℤ)) (inv : Line) (eads invs : List Line) :
    ((bestCandidate sim used inv eads).1 ≠ none ↔
      ∃ e ∈ eads, e.progressivo ∉ used ∧ hardFilterPass inv e = true ∧
        pairScore sim inv e > -1)
    ∧ (∀ p ∈ match_invoice_to_ead sim invs eads, p.2.1 = none → p.2.2 = -1) := by
  constructor
  · rw [Ne, ← Option.not_isSome_iff_eq_none, not_not, bestCandidate]
    have := foldBest_isSome_iff sim used inv eads (none, -1)
    simpa using this
  · intro p hp hn
    exact matchGo_sentinel sim eads invs [] p hp hn

set_option maxHeartbeats 2000000 in
/-- C3: at an input where the invoice-side canonical liters total (45) and
the EAD-side `ead_liters` total (100) are both defined and differ by far
more than max(1, 0.5 percent), `validate_shipment` emits no
TOTAL_LITERS_MISMATCH issue: the source computes the EAD-side total with
`liters_from_invoice`, which is `None` on every normalized EAD row, so the
check never fires. -/
theorem total_liters_check_silent :
    ([line45].filterMap liters_from_invoice).sum = 45
    ∧ ([ead100].filterMap (fun l => l.ead_liters)).sum = 100
    ∧ |(45 : ℚ) - 100| > max 1 (100 / 200)
    ∧ "TOTAL_LITERS_MISMATCH" ∉
        (validate_shipment hdrOk hdrOk [line45] [ead100] compOk none none).map
          Issue.type := by
  have h1 : pyStrip "77" = "77" := rfl
  have h2 : pyStrip "2024-01-01" = "2024-01-01" := rfl
  have h3 : pyStrip "24IT7" = "24IT7" := rfl
  have hout : validate_shipment hdrOk hdrOk [line45] [ead100] compOk none none =
      [⟨"QUANTITY_INTEGRITY_CHECK", "TOTAL_CASES_MISMATCH", "FAIL",
        [("invoice_sum_cases", Val.vz 10), ("ead_sum_cases", Val.vz 0)]⟩] := by
    norm_num [validate_shipment, optIssue, sumOrNone, truthyS, truthyZ, truthyQ, stripOpt,
      pyInt, modeFirst, hdrOk, compOk, line45, ead100, liters_from_invoice,
      normalize_bottle_liters, List.filterMap_cons, List.filterMap_nil, h1, h2, h3]
    decide
  refine ⟨?_, ?_, by norm_num, ?_⟩
  · norm_num [List.filterMap_cons, List.filterMap_nil, liters_from_invoice, line45,
      normalize_bottle_liters]
  · norm_num [List.filterMap_cons, List.filterMap_nil, ead100]
  · rw [hout]; decide

set_option maxHeartbeats 2000000 in
/-- C4: at a matched pair whose EAD side comes from `normalize_ead_rows`
(so its `designation` is the non-empty "BAROLO DOCG RED WINE" while it has no
"description" key), whose invoice description is non-empty and whose
similarity (0 under the evaluation stand-in) is below the default threshold
100, `validate_lines` emits no issue at all, in particular no
LOW_NAME_SIMILARITY: the source compares against the absent `description`
key of the EAD row, so the warning can never fire on pipeline rows. -/
theorem low_name_similarity_check_silent :
    eadC4.description = none
    ∧ pyStrip (eadC4.designation.getD "") ≠ ""
    ∧ pyStrip (invC4.description.getD "") ≠ ""
    ∧ token_set_ratio_fn simZero (pyStrip (invC4.description.getD ""))
        (pyStrip (eadC4.designation.getD "")) < 100
    ∧ validate_lines simZero 0 0 0 100 [(invC4, some eadC4, 100)] = [] := by
  have he : eadC4 =
      { progressivo := some 1, cn_code := some "2204", abv_percent := some 14,
        ead_liters := some 45, ead_gross_kg := some 50, ead_net_kg := some 44,
        designation := some "BAROLO DOCG RED WINE",
        denominazione_origine := some "BAROLO DOCG",
        designazione_commerciale := some "BAROLO RED WINE" } := rfl
  have h0 : pyStrip "" = "" := rfl
  have h1 : pyStrip "BAROLO DOCG" = "BAROLO DOCG" := rfl
  have h2 : pyStrip "2204" = "2204" := rfl
  refine ⟨rfl, by decide, by decide, ?_, ?_⟩
  · simp [token_set_ratio_fn, simZero]
  · norm_num [validate_lines, pairIssues, optIssue, he, invC4, h1, h2, h0, stripOpt,
      truthyS, liters_from_invoice, normalize_bottle_liters, token_set_ratio_fn, pyInt]
    decide

set_option maxHeartbeats 2000000 in
/-- C5: at an input with a positive document-level total-packages figure (5)
and invoice lines from which no bottles-per-case count is extractable,
`validate_shipment` emits neither PACKAGING_UNIT_UNCHECKED nor
PACKAGING_UNIT_MISMATCH: with no per-case counts the computed total-bottles
figure is 0, the guard `total_bottles > 0` fails and the whole packaging
block (its WARN branch included) is skipped, so the uncheckable case passes
silently. -/
theorem packaging_warn_check_silent :
    [lineC5].filterMap (fun l => l.bottles_per_case) = []
    ∧ (0 : ℤ) < 5
    ∧ "PACKAGING_UNIT_UNCHECKED" ∉
        (validate_shipment hdrOk hdrOk [lineC5] [] compOk (some 5) none).map Issue.type
    ∧ "PACKAGING_UNIT_MISMATCH" ∉
        (validate_shipment hdrOk hdrOk [lineC5] [] compOk (some 5) none).map Issue.type := by
  have h1 : pyStrip "77" = "77" := rfl
  have h2 : pyStrip "2024-01-01" = "2024-01-01" := rfl
  have h3 : pyStrip "24IT7" = "24IT7" := rfl
  have hout : validate_shipment hdrOk hdrOk [lineC5] [] compOk (some 5) none =
      [⟨"QUANTITY_INTEGRITY_CHECK", "TOTAL_CASES_MISMATCH", "FAIL",
        [("invoice_sum_cases", Val.vz 5), ("ead_sum_cases", Val.vz 0)]⟩] := by
    norm_num [validate_shipment, optIssue, sumOrNone, truthyS, truthyZ, truthyQ, stripOpt,
      pyInt, modeFirst, hdrOk, compOk, lineC5, liters_from_invoice,
      normalize_bottle_liters, List.filterMap_cons, List.filterMap_nil, h1, h2, h3]
    decide
  exact ⟨rfl, by norm_num, by rw [hout]; decide, by rw [hout]; decide⟩

/-- C6: for all inputs, whenever the matcher pairs an invoice line with an
EAD line and both carry a (truthy) commodity code, the stripped codes are
equal: a pair with differing codes is never selected, whatever the
similarity function and the other scores. -/
theorem matcher_never_pairs_mismatched_cn (sim : String → String → ℚ)
    (invs eads : List Line) (p : Line × Option Line × ℚ)
    (hp : p ∈ match_invoice_to_ead sim invs eads)
    (e : Line) (he : p.2.1 = some e)
    (h1 : truthyS p.1.cn_code = true) (h2 : truthyS e.cn_code = true) :
    stripOpt p.1.cn_code = stripOpt e.cn_code := by
  have hpass := (matchGo_sel sim eads invs [] p hp e he).2.2
  unfold hardFilterPass at hpass
  rw [h1, h2] at hpass
  simpa using hpass

/-- C6 (witness): the hard-filter theorem applied to the concrete run in
which `invC6` is paired with `eadC6`, whose codes agree after stripping. -/
theorem matcher_never_pairs_mismatched_cn_witness :
    stripOpt invC6.cn_code = stripOpt eadC6.cn_code := by
  have h0 : pyStrip "" = "" := rfl
  have h1 : pyStrip "22042176" = "22042176" := rfl
  have h2 : pyStrip " 22042176 " = "22042176" := rfl
  have hm : match_invoice_to_ead simZero [invC6] [eadC6] = [(invC6, some eadC6, 80)] := by
    norm_num [match_invoice_to_ead, matchGo, bestCandidate, betterOf, pairScore,
      scoreLiters, scoreCases, scoreAbv, scoreDesc, liters_from_invoice,
      normalize_bottle_liters, hardFilterPass, truthyS, stripOpt, token_set_ratio_fn,
      invC6, eadC6, simZero, h0, h1, h2]
  exact matcher_never_pairs_mismatched_cn simZero [invC6] [eadC6]
    (invC6, some eadC6, 80) (by rw [hm]; exact List.mem_cons_self ..)
    eadC6 rfl (by decide) (by decide)

/-- C7: for all inputs, the progressivi of the EAD lines the matcher assigns
are pairwise distinct (no progressivo is given to two invoice lines, each
EAD line is used at most once), and the number of used EAD lines never
exceeds the number of EAD lines. -/
theorem matcher_progressivo_unique_and_bounded (sim : String → String → ℚ)
    (invs eads : List Line) :
    (((match_invoice_to_ead sim invs eads).filterMap (fun p => p.2.1)).map
        (fun e => e.progressivo)).Nodup
    ∧ ((match_invoice_to_ead sim invs eads).filterMap (fun p => p.2.1)).length
        ≤ eads.length := by
  constructor
  · exact matchGo_nodup sim eads invs []
  · have hnd : (((match_invoice_to_ead sim invs eads).filterMap (fun p => p.2.1)).map
        (fun e => e.progressivo)).Nodup := matchGo_nodup sim eads invs []
    have hsub : ∀ x ∈ ((match_invoice_to_ead sim invs eads).filterMap
          (fun p => p.2.1)).map (fun e => e.progressivo),
        x ∈ eads.map (fun e => e.progressivo) := by
      intro x hx
      simp only [List.mem_map] at hx ⊢
      rcases hx with ⟨e, he, rfl⟩
      rcases List.mem_filterMap.1 he with ⟨p, hp, hpe⟩
      exact ⟨e, (matchGo_sel sim eads invs [] p hp e hpe).1, rfl⟩
    calc ((match_invoice_to_ead sim invs eads).filterMap (fun p => p.2.1)).length
        = (((match_invoice_to_ead sim invs eads).filterMap (fun p => p.2.1)).map
            (fun e => e.progressivo)).length := (List.length_map ..).symm
      _ = (((match_invoice_to_ead sim invs eads).filterMap (fun p => p.2.1)).map
            (fun e => e.progressivo)).toFinset.card :=
          (List.toFinset_card_of_nodup hnd).symm
      _ ≤ (eads.map (fun e => e.progressivo)).toFinset.card :=
          Finset.card_le_card
            (fun x hx => List.mem_toFinset.2 (hsub x (List.mem_toFinset.1 hx)))
      _ ≤ (eads.map (fun e => e.progressivo)).length := List.toFinset_card_le _
      _ = eads.length := List.length_map ..

/-- C8: a matched pair whose EAD side is absent contributes exactly the one
NO_MATCH/FAIL issue to the `validate_lines` output, wherever it sits in the
match list, and none of the other per-pair checks run for it. -/
theorem validate_lines_absent_pair_single_issue (sim : String → String → ℚ)
    (lt aw af nt : ℚ) (pre post : List (Line × Option Line × ℚ)) (inv : Line) (s : ℚ) :
    validate_lines sim lt aw af nt (pre ++ (inv, none, s) :: post) =
      validate_lines sim lt aw af nt pre
        ++ ⟨"PRODUCT_IDENTITY_CHECK", "NO_MATCH", "FAIL",
            [("invoice_desc", Val.vs (pyStrip (inv.description.getD ""))),
             ("match_score", Val.vq s)]⟩
        :: validate_lines sim lt aw af nt post := by
  unfold validate_lines
  rw [List.flatMap_append, List.flatMap_cons]
  simp [pairIssues]

/-- C10: for all inputs the matcher output has exactly one pair per invoice
line, in input order, whose first component is that invoice line. -/
theorem matcher_preserves_invoice_lines (sim : String → String → ℚ)
    (invs eads : List Line) :
    (match_invoice_to_ead sim invs eads).map (fun p => p.1) = invs :=
  matchGo_map_fst sim eads invs []

/-- C9: for any invoice line whose stored bottle size is already canonical
(`normalize_bottle_liters` fixes it, as holds for every pipeline line the
normalizer produced with a size at most 10), canonical liters follow the
claimed three-way case split: the preferred product when cases,
bottles-per-case and bottle size are all present; else the fallback
`bottles_total * bottle_liters` exactly when both are present and
`bottles_total ≤ 5000`; else absent.  In particular 10 cases of 6 bottles of
0.75 l give exactly 45 l. -/
theorem liters_from_invoice_formula (l : Line)
    (hcanon : ∀ v, l.bottle_liters = some v → normalize_bottle_liters v = v) :
    (∀ c p v, l.cases = some c → l.bottles_per_case = some p → l.bottle_liters = some v →
        liters_from_invoice l = some (c * p * v))
    ∧ ((l.cases = none ∨ l.bottles_per_case = none) →
        ∀ b v, l.bottles_total = some b → l.bottle_liters = some v → b ≤ 5000 →
          liters_from_invoice l = some (b * v))
    ∧ (l.bottle_liters = none → liters_from_invoice l = none)
    ∧ ((l.cases = none ∨ l.bottles_per_case = none) →
        (l.bottles_total = none ∨ ∃ b, l.bottles_total = some b ∧ 5000 < b) →
        liters_from_invoice l = none)
    ∧ liters_from_invoice lineC9 = some 45 := by
  refine ⟨?_, ?_, ?_, ?_, ?_⟩
  · intro c p v hc hp hv
    simp [liters_from_invoice, hc, hp, hv, hcanon v hv]
  · intro hor b v hb hv hle
    have hnv := hcanon v hv
    rcases hor with h | h
    · rcases hp : l.bottles_per_case with _ | p <;>
        simp [liters_from_invoice, h, hp, hb, hv, hnv, hle]
    · rcases hc : l.cases with _ | c <;>
        simp [liters_from_invoice, h, hc, hb, hv, hnv, hle]
  · intro hv
    rcases hc : l.cases with _ | c <;> rcases hp : l.bottles_per_case with _ | p <;>
      rcases hb : l.bottles_total with _ | b <;>
        simp [liters_from_invoice, hv, hc, hp, hb]
  · intro hor hbt
    rcases hv : l.bottle_liters with _ | v
    · rcases hc : l.cases with _ | c <;> rcases hp : l.bottles_per_case with _ | p <;>
        rcases hb : l.bottles_total with _ | b <;>
          simp [liters_from_invoice, hv, hc, hp, hb]
    · have hnv := hcanon v hv
      rcases hbt with hb | ⟨b, hb, hgt⟩
      · rcases hor with h | h
        · rcases hp : l.bottles_per_case with _ | p <;>
            simp [liters_from_invoice, h, hp, hb, hv, hnv]
        · rcases hc : l.cases with _ | c <;>
            simp [liters_from_invoice, h, hc, hb, hv, hnv]
      · have hnle : ¬ (b ≤ 5000) := not_le.2 hgt
        rcases hor with h | h
        · rcases hp : l.bottles_per_case with _ | p <;>
            simp [liters_from_invoice, h, hp, hb, hv, hnv, hnle]
        · rcases hc : l.cases with _ | c <;>
            simp [liters_from_invoice, h, hc, hb, hv, hnv, hnle]
  · norm_num [liters_from_invoice, lineC9, normalize_bottle_liters]

/-- C9 (witness): the formula theorem applied to the concrete line with 10
cases of 6 bottles of 0.75 l, whose stored size 0.75 is canonical. -/
theorem liters_from_invoice_formula_witness :
    liters_from_invoice lineC9 = some (10 * 6 * (3 / 4)) := by
  have h := liters_from_invoice_formula lineC9 (by
    intro v hv
    have hv2 : (3 / 4 : ℚ) = v := by simpa [lineC9] using hv
    rw [← hv2]
    norm_num [normalize_bottle_liters])
  exact h.1 10 6 (3 / 4) rfl rfl rfl

/-- C2 (amended): for every position i of the matcher output, considering the
EAD lines not yet used by the earlier pairs: if the pair records an EAD line,
that line is available, passes the hard filter, is emitted together with its
own total score, that score strictly exceeds the sentinel -1, and it is
maximal - no available passing EAD line scores higher (so the recorded line
is the best-scoring passing candidate, even when its score is low); if the
pair is absent, the score is the sentinel -1 and every available passing EAD
line scores at most -1. -/
theorem matcher_records_best_passing_candidate (sim : String → String → ℚ)
    (invs eads : List Line) (i : ℕ)
    (hi : i < (match_invoice_to_ead sim invs eads).length) :
    (∀ e, ((match_invoice_to_ead sim invs eads).get ⟨i, hi⟩).2.1 = some e →
        ((match_invoice_to_ead sim invs eads).get ⟨i, hi⟩).2.2 =
            pairScore sim ((match_invoice_to_ead sim invs eads).get ⟨i, hi⟩).1 e
        ∧ pairScore sim ((match_invoice_to_ead sim invs eads).get ⟨i, hi⟩).1 e > -1
        ∧ e ∈ eads
        ∧ e.progressivo ∉ usedBefore (match_invoice_to_ead sim invs eads) i
        ∧ hardFilterPass ((match_invoice_to_ead sim invs eads).get ⟨i, hi⟩).1 e = true
        ∧ ∀ x ∈ eads, x.progressivo ∉ usedBefore (match_invoice_to_ead sim invs eads) i →
            hardFilterPass ((match_invoice_to_ead sim invs eads).get ⟨i, hi⟩).1 x = true →
            pairScore sim ((match_invoice_to_ead sim invs eads).get ⟨i, hi⟩).1 x ≤
              pairScore sim ((match_invoice_to_ead sim invs eads).get ⟨i, hi⟩).1 e)
    ∧ (((match_invoice_to_ead sim invs eads).get ⟨i, hi⟩).2.1 = none →
        ((match_invoice_to_ead sim invs eads).get ⟨i, hi⟩).2.2 = -1
        ∧ ∀ x ∈ eads, x.progressivo ∉ usedBefore (match_invoice_to_ead sim invs eads) i →
            hardFilterPass ((match_invoice_to_ead sim invs eads).get ⟨i, hi⟩).1 x = true →
            pairScore sim ((match_invoice_to_ead sim invs eads).get ⟨i, hi⟩).1 x ≤ -1) := by
  obtain ⟨hj, hp⟩ := matchGo_getElem sim eads invs [] i hi
  rw [List.append_nil] at hp
  have hM : (match_invoice_to_ead sim invs eads).get ⟨i, hi⟩ =
      (matchGo sim eads [] invs).get ⟨i, hi⟩ := rfl
  have hU : usedBefore (match_invoice_to_ead sim invs eads) i =
      usedBefore (matchGo sim eads [] invs) i := rfl
  rw [hM, hU, hp]
  obtain ⟨hspec1, hspec2, hspec3⟩ :=
    bestCandidate_spec sim (usedBefore (matchGo sim eads [] invs) i)
      (invs.get ⟨i, hj⟩) eads
  constructor
  · intro e he
    obtain ⟨hsc, hgt, hmem, hun, hpass⟩ := hspec1 e he
    refine ⟨hsc, hgt, hmem, hun, hpass, ?_⟩
    intro x hx h1 h2
    exact hsc ▸ hspec3 x hx h1 h2
  · intro hn
    refine ⟨hspec2 hn, ?_⟩
    intro x hx h1 h2
    have h3 := hspec3 x hx h1 h2
    rw [hspec2 hn] at h3
    exact h3

/-- C2 witness: the per-position specification applied at position 0 of the
concrete run pairing `invC6` with `eadC6`, whose recorded score 80 is the
score of the recorded line and exceeds the sentinel. -/
theorem matcher_records_best_passing_candidate_witness :
    pairScore simZero invC6 eadC6 > -1 ∧ (80 : ℚ) = pairScore simZero invC6 eadC6 := by
  have h0 : pyStrip "" = "" := rfl
  have h1 : pyStrip "22042176" = "22042176" := rfl
  have h2 : pyStrip " 22042176 " = "22042176" := rfl
  have hm : match_invoice_to_ead simZero [invC6] [eadC6] = [(invC6, some eadC6, 80)] := by
    norm_num [match_invoice_to_ead, matchGo, bestCandidate, betterOf, pairScore,
      scoreLiters, scoreCases, scoreAbv, scoreDesc, liters_from_invoice,
      normalize_bottle_liters, hardFilterPass, truthyS, stripOpt, token_set_ratio_fn,
      invC6, eadC6, simZero, h0, h1, h2]
  have hi : 0 < (match_invoice_to_ead simZero [invC6] [eadC6]).length := by
    rw [hm]; norm_num
  have h := matcher_records_best_passing_candidate simZero [invC6] [eadC6] 0 hi
  have hget : (match_invoice_to_ead simZero [invC6] [eadC6]).get ⟨0, hi⟩ =
      (invC6, some eadC6, 80) := by
    simp only [List.get_of_eq hm]
    rfl
  have hb := h.1 eadC6 (by rw [hget])
  rw [hget] at hb
  exact ⟨hb.2.1, hb.1⟩
